import Mathlib

/-!
Verification of the Next.js + DynamoDB template against its design spec.

The embedding translates the repository's data-access layer
(`src/app/lib/dynamodb.ts`), the update-request handler
(`src/app/api/users/route.ts`, POST "update" case) and the table schema
(`src/scripts/setup-dynamo.ts`) into executable Lean definitions.

Conventions of the embedding:
* JavaScript/JSON runtime values are modelled by `JVal` (JSON has no
  `undefined`, so an absent object property is `Option.none` via `getK`).
* A JavaScript object is an association list `AttrMap` with JS object
  semantics: property assignment (`setK`) overwrites in place, `delete`
  (`delK`) drops the key, spread (`mergeK`) assigns left-to-right.
* Calls of `new Date().toISOString()` / `Date.now()` are modelled by
  explicit `now` / `nowSec` parameters (the code reads the ambient clock).
* The DynamoDB engine itself is not part of the repository; where its
  behaviour is needed it is modelled from the spec, in definitions whose
  doc comments start with "Modelled from the spec:".
-/

namespace NextDynamo

/-- JSON runtime values as handled by the document client. -/
inductive JVal where
  | jnull
  | jbool (b : Bool)
  | jnum (n : Int)
  | jstr (s : String)
  deriving DecidableEq, Repr

/-- A JavaScript object: ordered association list of properties. -/
abbrev AttrMap := List (String × JVal)

/-- Property read `obj[k]`: first (and in a well-formed object, only)
binding of `k`; `none` models `undefined`. -/
def getK (m : AttrMap) (k : String) : Option JVal :=
  match m with
  | [] => none
  | (k1, v) :: rest => if k1 = k then some v else getK rest k

/-- Property write `obj[k] = v`: overwrites an existing binding in place,
otherwise appends (JS property insertion order). -/
def setK (m : AttrMap) (k : String) (v : JVal) : AttrMap :=
  match m with
  | [] => [(k, v)]
  | (k1, v1) :: rest => if k1 = k then (k, v) :: rest else (k1, v1) :: setK rest k v

/-- Property deletion `delete obj[k]`: drops the binding of `k`. -/
def delK (m : AttrMap) (k : String) : AttrMap :=
  match m with
  | [] => []
  | (k1, v1) :: rest => if k1 = k then delK rest k else (k1, v1) :: delK rest k

/-- Object spread `\x7b ...m, ...data \x7d`: assign every property of
`data` onto `m`, left to right. -/
def mergeK (m data : AttrMap) : AttrMap :=
  data.foldl (fun acc p => setK acc p.1 p.2) m

/-- JavaScript falsiness of a possibly-absent value (`!x` in the source):
`undefined`, `null`, `""`, `0` and `false` are falsy. -/
def falsyJ (v : Option JVal) : Bool :=
  match v with
  | none => true
  | some .jnull => true
  | some (.jstr s) => s = ""
  | some (.jnum n) => n = 0
  | some (.jbool b) => !b

/-- JavaScript `String.prototype.startsWith`, written on the character
list so that it evaluates inside the kernel. -/
def strStartsWith (s pat : String) : Bool :=
  pat.data.isPrefixOf s.data

/-- Character containment in a string, written on the character list so
that it evaluates inside the kernel. -/
def strContainsChar (s : String) (c : Char) : Bool :=
  s.data.contains c

/-- Enum `ItemType` of src/app/lib/dynamodb.ts. -/
inductive ItemType where
  | PROFILE
  | DETAIL
  | ACTIVITY
  deriving DecidableEq, Repr

/-- The string value of an `ItemType` member. -/
def ItemType.str : ItemType → String
  | .PROFILE => "PROFILE"
  | .DETAIL => "DETAIL"
  | .ACTIVITY => "ACTIVITY"

/-- The source's `secondaryType || "DEFAULT"` (empty string is falsy). -/
def secondaryOr (secondaryType : Option String) : String :=
  match secondaryType with
  | none => "DEFAULT"
  | some s => if s = "" then "DEFAULT" else s

/-- `generateSortKey` of src/app/lib/dynamodb.ts lines 68-84; the
`new Date().toISOString()` read is the explicit `timestamp` parameter. -/
def generateSortKey (itemType : ItemType) (secondaryType : Option String)
    (timestamp : String) : String :=
  match itemType with
  | .PROFILE => "PROFILE#" ++ timestamp
  | .DETAIL => "DETAIL#" ++ secondaryOr secondaryType ++ "#" ++ timestamp
  | .ACTIVITY => "ACTIVITY#" ++ secondaryOr secondaryType ++ "#" ++ timestamp

/-- `calculateTTL` of src/app/lib/dynamodb.ts lines 91-94;
`Math.floor(Date.now() / 1000)` is the explicit `nowSec` parameter. -/
def calculateTTL (nowSec : Int) (secondsFromNow : Int) : Int :=
  nowSec + secondsFromNow

/-- `formatTTLDate` of src/app/lib/dynamodb.ts lines 101-104.
`toLocaleString` abstracts the host's locale date formatting of a
millisecond timestamp; `!ttlTimestamp` on a number is `ttlTimestamp = 0`
(NaN is not representable for an `Int`-modelled timestamp). -/
def formatTTLDate (toLocaleString : Int → String) (ttlTimestamp : Int) : String :=
  if ttlTimestamp = 0 then "No expiration"
  else toLocaleString (ttlTimestamp * 1000)

/-- `createUserProfile` of src/app/lib/dynamodb.ts lines 109-125, up to the
`PutCommand`: generates a default sort key when `item.sk` is falsy, then
assigns `itemType` and `createdAt` unconditionally. Returns the item that
is sent to the table. -/
def createUserProfile (now : String) (item : AttrMap) : AttrMap :=
  let item1 := if falsyJ (getK item "sk")
    then setK item "sk" (.jstr (generateSortKey .PROFILE none now))
    else item
  let item2 := setK item1 "itemType" (.jstr "PROFILE")
  setK item2 "createdAt" (.jstr now)

/-- `addUserDetail` of src/app/lib/dynamodb.ts lines 130-151, up to the
`PutCommand`: the object literal writes `userId`, `sk`, `itemType`,
`detailType`, then spreads `data`, then writes `createdAt` last. -/
def addUserDetail (now : String) (userId detailType : String)
    (data : AttrMap) : AttrMap :=
  let base := setK (setK (setK (setK [] "userId" (.jstr userId))
    "sk" (.jstr (generateSortKey .DETAIL (some detailType) now)))
    "itemType" (.jstr "DETAIL")) "detailType" (.jstr detailType)
  setK (mergeK base data) "createdAt" (.jstr now)

/-- `addUserActivity` of src/app/lib/dynamodb.ts lines 156-177, up to the
`PutCommand`: same shape as `addUserDetail` with `ACTIVITY`/`activityType`. -/
def addUserActivity (now : String) (userId activityType : String)
    (data : AttrMap) : AttrMap :=
  let base := setK (setK (setK (setK [] "userId" (.jstr userId))
    "sk" (.jstr (generateSortKey .ACTIVITY (some activityType) now)))
    "itemType" (.jstr "ACTIVITY")) "activityType" (.jstr activityType)
  setK (mergeK base data) "createdAt" (.jstr now)

/-- The physical table: the multiset of stored items, as a list. -/
abbrev Table := List AttrMap

/-- Whether a stored item has composite key `(userId, sk)`. -/
def matchKey (r : AttrMap) (userId sk : String) : Bool :=
  (getK r "userId" == some (.jstr userId)) && (getK r "sk" == some (.jstr sk))

/-- Whether two stored items carry the same composite key. -/
def sameKey (r1 r2 : AttrMap) : Bool :=
  (getK r1 "userId" == getK r2 "userId") && (getK r1 "sk" == getK r2 "sk")

/-- Modelled from the spec: the engine behind `PutCommand` is not in the
repository; per the spec, put "inserts or fully replaces" — the item at
the same `(userId, sk)` key, if any, is replaced whole. -/
def putCmd (t : Table) (item : AttrMap) : Table :=
  item :: t.filter (fun r => !sameKey r item)

/-- Modelled from the spec: the engine behind `GetCommand` is a point
lookup of the physically stored item at `(userId, sk)`; the repository
issues it with no filter of any kind (src/app/lib/dynamodb.ts 180-187). -/
def getCmd (t : Table) (userId sk : String) : Option AttrMap :=
  t.find? (fun r => matchKey r userId sk)

/-- `getItem` of src/app/lib/dynamodb.ts lines 180-187: a bare
`GetCommand` on the key, nothing else. -/
def getItem (t : Table) (userId sk : String) : Option AttrMap :=
  getCmd t userId sk

/-- `scanTable` of src/app/lib/dynamodb.ts lines 227-233: a bare
`ScanCommand`, which returns every physically stored item. -/
def scanTable (t : Table) : List AttrMap :=
  t

/-- `queryUserItems` of src/app/lib/dynamodb.ts lines 190-210:
`userId = :userId`, plus `begins_with(sk, :skPfx)` when a sort-key
prefix argument is supplied. DynamoDB orders the result by sort key;
ordering is abstracted away here (only membership is used). -/
def queryUserItems (t : Table) (userId : String) (skPfx : Option String) :
    List AttrMap :=
  t.filter (fun r =>
    (getK r "userId" == some (.jstr userId)) &&
    (match skPfx, getK r "sk" with
     | none, _ => true
     | some p, some (.jstr s) => strStartsWith s p
     | some _, _ => false))

/-- `deleteItem` of src/app/lib/dynamodb.ts lines 254-261: an
unconditional `DeleteCommand` on the key. Modelled from the spec: the
engine removes the item at the key if present and succeeds either way
(the function is total — there is no failing outcome). -/
def deleteItem (t : Table) (userId sk : String) : Table :=
  t.filter (fun r => !matchKey r userId sk)

/-- First-occurrence substring replacement, the semantics of JavaScript
`String.prototype.replace` with a string pattern (the source's
`expr.replace("REMOVE ", "")`). -/
def replaceFirstAux (pat rep : List Char) : List Char → List Char
  | [] => []
  | c :: rest =>
    if pat.isPrefixOf (c :: rest) then rep ++ (c :: rest).drop pat.length
    else c :: replaceFirstAux pat rep rest

/-- String wrapper for `replaceFirstAux`. -/
def replaceFirst (s pat rep : String) : String :=
  ⟨replaceFirstAux pat.data rep.data s.data⟩

/-- The two 400-level failures the update case can report after the
key-presence check: "TTL must be a valid number of seconds" and
"No fields to update provided" (the spec's `EmptyPatch`). -/
inductive BuildErr where
  | invalidTTL
  | emptyPatch
  deriving DecidableEq, Repr

/-- The locals of the update case at the point `updateItem` is called:
the assembled `updateExpression`, the `expressionAttributeValues` object,
and the `setExpressions` / `removeExpressions` lists it was split into. -/
structure BuildOut where
  updateExpression : String
  values : AttrMap
  setExprs : List String
  removeExprs : List String
  deriving DecidableEq, Repr

/-- JavaScript `parseInt` as applied to the request's ttl value: integral
numbers pass through, fully numeric strings parse, other values are NaN
(`none`). Partial parses of mixed strings are not modelled; no claim
exercises them. -/
def parseIntJ : JVal → Option Int
  | .jnum n => some n
  | .jstr s => s.toInt?
  | _ => none

/-- The ttl branch of the update case (route.ts lines 330-350): `null` or
`""` push a `REMOVE expiresAt` fragment; any other value must parse as an
integer and pushes `expiresAt = :expiresAt` valued `calculateTTL`. -/
def ttlFragment (v : JVal) (nowSec : Int) : Except BuildErr (String × AttrMap) :=
  if v = JVal.jnull ∨ v = JVal.jstr "" then .ok ("REMOVE expiresAt", [])
  else
    match parseIntJ v with
    | none => .error .invalidTTL
    | some n => .ok ("expiresAt = :expiresAt", [(":expiresAt", .jnum (calculateTTL nowSec n))])

/-- The update loop's guard (route.ts lines 354-359): fields named
`userId`, `sk` or `operation` are passed over. The `value !== undefined`
conjunct is vacuous for JSON-parsed bodies (`JVal` has no undefined). -/
def eligibleKey (k : String) : Bool :=
  (k != "userId") && (k != "sk") && (k != "operation")

/-- The expression fragments the field loop pushes (route.ts line 360):
one fragment per eligible entry, in entry order. -/
def fieldFragments : AttrMap → List String
  | [] => []
  | (k, _) :: rest =>
    if eligibleKey k then (k ++ " = :" ++ k) :: fieldFragments rest
    else fieldFragments rest

/-- The caller-supplied fields the update loop keeps, as key/value pairs. -/
def eligiblePairs : AttrMap → AttrMap
  | [] => []
  | (k, v) :: rest =>
    if eligibleKey k then (k, v) :: eligiblePairs rest else eligiblePairs rest

/-- The field loop's writes into `expressionAttributeValues` (route.ts
line 361): `values[":" + key] = value` for each eligible entry. -/
def addFieldValues (acc : AttrMap) : AttrMap → AttrMap
  | [] => acc
  | (k, v) :: rest =>
    addFieldValues (if eligibleKey k then setK acc (":" ++ k) v else acc) rest

/-- The tail of the update case after the ttl branch (route.ts lines
352-401): push the field fragments and `updatedAt = :updatedAt`, fail
with `emptyPatch` when only `updatedAt` was pushed, split the fragments
on `startsWith "REMOVE"`, and assemble the single expression string. -/
def finishUpdate (ttlExprs : List String) (ttlVals : AttrMap)
    (data : AttrMap) (now : String) : Except BuildErr BuildOut :=
  let updateExpressions := ttlExprs ++ fieldFragments data ++ ["updatedAt = :updatedAt"]
  let values := setK (addFieldValues ttlVals data) ":updatedAt" (.jstr now)
  if updateExpressions.length = 1 then .error .emptyPatch
  else
    let setExpressions := updateExpressions.filter (fun e => !strStartsWith e "REMOVE")
    let removeExpressions := updateExpressions.filter (fun e => strStartsWith e "REMOVE")
    let updateExpression :=
      if removeExpressions.length > 0 then
        "SET " ++ String.intercalate ", " setExpressions ++
          " REMOVE " ++ String.intercalate ", "
            (removeExpressions.map (fun e => replaceFirst e "REMOVE " ""))
      else "SET " ++ String.intercalate ", " updateExpressions
    .ok ⟨updateExpression, values, setExpressions, removeExpressions⟩

/-- The POST "update" case of src/app/api/users/route.ts (lines 313-408)
after the `userId`/`sk` presence check. `data` is the request body minus
`operation` (the code's `...data` rest object, which still carries the
`userId` and `sk` entries); `data.ttl !== undefined` is `getK data "ttl"`,
and the code deletes `ttl` from `data` once handled. -/
def updateCase (data : AttrMap) (now : String) (nowSec : Int) :
    Except BuildErr BuildOut :=
  match getK data "ttl" with
  | none => finishUpdate [] [] data now
  | some tv =>
    match ttlFragment tv nowSec with
    | .error e => .error e
    | .ok (frag, vals) => finishUpdate [frag] vals (delK data "ttl") now

/-- Modelled from the spec: the engine applies one update instruction
atomically — all removals first, then all set assignments, in one step. -/
def applyUpdate (removes : List String) (sets : AttrMap) (r : AttrMap) : AttrMap :=
  sets.foldl (fun m p => setK m p.1 p.2) (removes.foldl delK r)

/-- The default table name (environment variable `DYNAMODB_TABLE` unset). -/
def TABLE_NAME : String := "Users"

/-- Key-condition expressions as written in the source, structurally:
`eqCond a p` is the string "a = p", `beginsWith a p` is
"begins_with(a, p)", `andCond l r` is "l AND r". -/
inductive KeyCond where
  | eqCond (attr ph : String)
  | beginsWith (attr ph : String)
  | andCond (left right : KeyCond)
  deriving DecidableEq, Repr

/-- A `QueryCommand` as assembled by the source. -/
structure QueryReq where
  tableName : String
  indexName : Option String
  keyCondition : KeyCond
  values : AttrMap
  deriving DecidableEq, Repr

/-- `queryBySortKey` of src/app/lib/dynamodb.ts lines 213-224: IndexName
"SKIndex", KeyConditionExpression "begins_with(sk, :skPrefix)". -/
def queryBySortKey (skPfx : String) : QueryReq :=
  { tableName := TABLE_NAME
    indexName := some "SKIndex"
    keyCondition := .beginsWith "sk" ":skPrefix"
    values := [(":skPrefix", .jstr skPfx)] }

/-- The `QueryCommand` that `queryUserItems` (src lines 190-210) builds:
"userId = :userId", with " AND begins_with(sk, :skPrefix)" appended when a
sort-key prefix is supplied; no index. -/
def queryUserItemsReq (userId : String) (skPfx : Option String) : QueryReq :=
  match skPfx with
  | none =>
    { tableName := TABLE_NAME, indexName := none
      keyCondition := .eqCond "userId" ":userId"
      values := [(":userId", .jstr userId)] }
  | some p =>
    { tableName := TABLE_NAME, indexName := none
      keyCondition := .andCond (.eqCond "userId" ":userId") (.beginsWith "sk" ":skPrefix")
      values := [(":userId", .jstr userId), (":skPrefix", .jstr p)] }

/-- A hash/range key schema. -/
structure IndexSchema where
  hashKey : String
  rangeKey : String
  deriving DecidableEq, Repr

/-- The GSI "SKIndex" declared in src/scripts/setup-dynamo.ts lines 40-52:
HASH key `sk`, RANGE key `userId`. -/
def skIndexSchema : IndexSchema :=
  { hashKey := "sk", rangeKey := "userId" }

/-- The main table's key schema, setup-dynamo.ts lines 34-37:
HASH key `userId`, RANGE key `sk`. -/
def mainSchema : IndexSchema :=
  { hashKey := "userId", rangeKey := "sk" }

/-- DynamoDB's Query key-condition contract (behaviour of the external
engine, not of repository code): a key condition must pin the queried
schema's HASH key with an equality test and may additionally constrain
the RANGE key, for example with begins_with; begins_with on the HASH key
is rejected with a validation error. -/
def validKeyCondition (schema : IndexSchema) : KeyCond → Bool
  | .eqCond a _ => a == schema.hashKey
  | .beginsWith _ _ => false
  | .andCond (.eqCond a _) (.beginsWith b _) => a == schema.hashKey && b == schema.rangeKey
  | .andCond _ _ => false

/-! ### Helper lemmas about the object model -/

theorem getK_setK_self (m : AttrMap) (k : String) (v : JVal) :
    getK (setK m k v) k = some v := by
  induction m with
  | nil => simp [setK, getK]
  | cons p rest ih =>
    obtain ⟨k1, v1⟩ := p
    by_cases h : k1 = k
    · simp [setK, getK, h]
    · simp [setK, getK, h, ih]

theorem getK_filter (q : String × JVal → Bool) (m : AttrMap) (k : String)
    (hq : ∀ v, q (k, v) = true) : getK (m.filter q) k = getK m k := by
  induction m with
  | nil => rfl
  | cons p rest ih =>
    obtain ⟨k1, v1⟩ := p
    by_cases h : k1 = k
    · subst h
      rw [List.filter_cons_of_pos (hq v1)]
      simp [getK]
    · by_cases hkeep : q (k1, v1) = true
      · rw [List.filter_cons_of_pos hkeep]
        simp [getK, h, ih]
      · rw [List.filter_cons_of_neg (by simpa using hkeep)]
        simp [getK, h, ih]

/-! ### C10 — formatTTLDate -/

/-- C10: `formatTTLDate` returns "No expiration" for the falsy timestamp 0
and the locale-formatted date of `t * 1000` milliseconds for every
nonzero timestamp `t`. -/
theorem formatTTLDate_zero_nonzero (f : Int → String) (t : Int) (h : t ≠ 0) :
    formatTTLDate f 0 = "No expiration" ∧ formatTTLDate f t = f (t * 1000) := by
  refine ⟨rfl, ?_⟩
  simp [formatTTLDate, h]

/-- C10 witness: concrete formatter and timestamp 2. -/
theorem formatTTLDate_zero_nonzero_wit :
    formatTTLDate (fun _ => "1/1/2024, 1:00:00 AM") 0 = "No expiration" ∧
    formatTTLDate (fun _ => "1/1/2024, 1:00:00 AM") 2 =
      (fun _ : Int => "1/1/2024, 1:00:00 AM") (2 * 1000) :=
  formatTTLDate_zero_nonzero (fun _ => "1/1/2024, 1:00:00 AM") 2 (by decide)

/-! ### C4 — queryBySortKey against the SKIndex schema -/

/-- C4: the `QueryCommand` built by `queryBySortKey` targets the GSI
"SKIndex", whose HASH key is `sk` (setup-dynamo.ts), but its key
condition is `begins_with` on `sk` — which DynamoDB's Query contract
rejects, since the HASH key of the queried index must be constrained by
equality. The call therefore fails for every prefix instead of returning
the matching records. -/
theorem queryBySortKey_invalid_key_condition (p : String) :
    validKeyCondition skIndexSchema (queryBySortKey p).keyCondition = false ∧
    (queryBySortKey p).indexName = some "SKIndex" ∧
    skIndexSchema.hashKey = "sk" ∧
    (queryBySortKey p).keyCondition = KeyCond.beginsWith "sk" ":skPrefix" :=
  ⟨rfl, rfl, rfl, rfl⟩

/-- Non-vacuity check for the query contract model: the companion
`queryUserItems` command, in both of its shapes, satisfies the same
contract against the main table's schema. -/
theorem queryUserItemsReq_valid_key_condition (u : String) (pfx : Option String) :
    validKeyCondition mainSchema (queryUserItemsReq u pfx).keyCondition = true := by
  cases pfx <;> rfl

/-! ### C9 — fields named REMOVE* are misrouted -/

/-- C9: a caller-supplied update field named "REMOVED" produces the
fragment "REMOVED = :REMOVED", which the SET/REMOVE split classifies as a
REMOVE fragment because it starts with "REMOVE"; the assignment therefore
lands in the REMOVE clause of the single built expression (an assignment
is not a valid remove-action path, so the instruction is malformed), and
not in the SET clause. -/
theorem update_REMOVED_field_misrouted :
    updateCase [("userId", JVal.jstr "u1"), ("sk", JVal.jstr "k1"),
                ("REMOVED", JVal.jstr "x")] "2024-06-01T00:00:00.000Z" 100 =
      .ok ⟨"SET updatedAt = :updatedAt REMOVE REMOVED = :REMOVED",
           [(":REMOVED", JVal.jstr "x"),
            (":updatedAt", JVal.jstr "2024-06-01T00:00:00.000Z")],
           ["updatedAt = :updatedAt"],
           ["REMOVED = :REMOVED"]⟩ ∧
    strStartsWith "REMOVED = :REMOVED" "REMOVE" = true ∧
    strContainsChar "REMOVED = :REMOVED" '=' = true := by
  refine ⟨rfl, by decide, by decide⟩

/-! ### C7 — generateSortKey -/

/-- Lexicographic list order is preserved under a common prefix. -/
theorem list_lt_append_left {α : Type} [LT α] (p : List α) {a b : List α}
    (h : a < b) : p ++ a < p ++ b := by
  induction p with
  | nil => exact h
  | cons x xs ih =>
    show List.Lex (· < ·) (x :: (xs ++ a)) (x :: (xs ++ b))
    exact List.Lex.cons ih

/-- String order is preserved under a common prefix. -/
theorem string_lt_append_left (p : String) {a b : String} (h : a < b) :
    p ++ a < p ++ b := by
  rw [String.lt_iff_toList_lt] at h ⊢
  have hd : ∀ x y : String, (x ++ y).toList = x.toList ++ y.toList := fun x y => rfl
  rw [hd, hd]
  exact list_lt_append_left p.toList h

/-- C7 counterexample: `generateSortKey` does not reject a subtype
containing the separator `#`. The subtype "a#b" is embedded verbatim, the
resulting key collides with the key of the distinct subtype "a" at
timestamp "b#T", and it matches the prefix used for subtype "a" — so
prefix boundaries are ambiguous, contrary to the claim that such inputs
are rejected. -/
theorem generateSortKey_hash_not_rejected_cex :
    generateSortKey .DETAIL (some "a#b") "2024-01-01T00:00:00.000Z" =
      "DETAIL#a#b#2024-01-01T00:00:00.000Z" ∧
    generateSortKey .DETAIL (some "a#b") "T" =
      generateSortKey .DETAIL (some "a") "b#T" ∧
    strStartsWith (generateSortKey .DETAIL (some "a#b") "T") "DETAIL#a#" = true := by
  refine ⟨rfl, rfl, by decide⟩

/-- C7 amended: `generateSortKey` deterministically builds
`PROFILE#<timestamp>` or `<KIND>#<subtype-or-DEFAULT>#<timestamp>`, and
for a fixed kind and subtype the keys sort chronologically with the
timestamp; but `#` inside the subtype is not rejected (see the
counterexample). -/
theorem generateSortKey_shape_and_chronological (it : ItemType)
    (sub : Option String) (t1 t2 : String) (h : t1 < t2) :
    generateSortKey it sub t1 < generateSortKey it sub t2 ∧
    generateSortKey .PROFILE sub t1 = "PROFILE#" ++ t1 ∧
    generateSortKey .DETAIL sub t1 = "DETAIL#" ++ secondaryOr sub ++ "#" ++ t1 ∧
    generateSortKey .ACTIVITY sub t1 = "ACTIVITY#" ++ secondaryOr sub ++ "#" ++ t1 := by
  refine ⟨?_, rfl, rfl, rfl⟩
  cases it with
  | PROFILE => exact string_lt_append_left "PROFILE#" h
  | DETAIL => exact string_lt_append_left ("DETAIL#" ++ secondaryOr sub ++ "#") h
  | ACTIVITY => exact string_lt_append_left ("ACTIVITY#" ++ secondaryOr sub ++ "#") h

/-- C7 amended witness: concrete timestamps in chronological order. -/
theorem generateSortKey_shape_and_chronological_wit :
    generateSortKey .DETAIL (some "address") "2024-01-02T00:00:00.000Z" <
      generateSortKey .DETAIL (some "address") "2024-01-03T00:00:00.000Z" :=
  (generateSortKey_shape_and_chronological .DETAIL (some "address")
    "2024-01-02T00:00:00.000Z" "2024-01-03T00:00:00.000Z"
    (by rw [String.lt_iff_toList_lt]; decide)).1

/-! ### C8 — delete is an idempotent no-op on absent keys -/

/-- C8: `deleteItem` issues an unconditional delete: deleting twice
leaves the same table as deleting once, deleting an absent key changes
nothing, and after a delete the key reads as absent. The operation is a
total function — there is no failing outcome on either call. -/
theorem deleteItem_idempotent_noop (t : Table) (u k : String) :
    deleteItem (deleteItem t u k) u k = deleteItem t u k ∧
    (getItem t u k = none → deleteItem t u k = t) ∧
    getItem (deleteItem t u k) u k = none := by
  refine ⟨?_, ?_, ?_⟩
  · simp [deleteItem, List.filter_filter]
  · intro h
    have hall : ∀ r ∈ t, ¬ (matchKey r u k = true) :=
      List.find?_eq_none.mp h
    refine List.filter_eq_self.mpr ?_
    intro r hr
    simp [hall r hr]
  · refine List.find?_eq_none.mpr ?_
    intro r hr
    have := List.mem_filter.mp hr
    simpa using this.2

/-- C8 witness: a concrete table where the deleted key is absent. -/
theorem deleteItem_idempotent_noop_wit :
    deleteItem (deleteItem [[("userId", JVal.jstr "u1"), ("sk", JVal.jstr "PROFILE#A")]] "u2" "B") "u2" "B" =
      deleteItem [[("userId", JVal.jstr "u1"), ("sk", JVal.jstr "PROFILE#A")]] "u2" "B" ∧
    deleteItem [[("userId", JVal.jstr "u1"), ("sk", JVal.jstr "PROFILE#A")]] "u2" "B" =
      [[("userId", JVal.jstr "u1"), ("sk", JVal.jstr "PROFILE#A")]] :=
  ⟨(deleteItem_idempotent_noop [[("userId", JVal.jstr "u1"), ("sk", JVal.jstr "PROFILE#A")]] "u2" "B").1,
   (deleteItem_idempotent_noop [[("userId", JVal.jstr "u1"), ("sk", JVal.jstr "PROFILE#A")]] "u2" "B").2.1 (by decide)⟩

/-! ### C1 — createdAt on put -/

/-- C1 counterexample: a record already stored at ("u1", "PROFILE#A") with
`createdAt` "2020-01-01…"; a subsequent `createUserProfile` put at the
same key stores `createdAt` "2024-06-01…" (the put time), not the
original value — `createdAt` is not preserved. -/
theorem createUserProfile_overwrites_createdAt_cex :
    getItem
      (putCmd [[("userId", JVal.jstr "u1"), ("sk", JVal.jstr "PROFILE#A"),
                ("name", JVal.jstr "Old"),
                ("createdAt", JVal.jstr "2020-01-01T00:00:00.000Z")]]
        (createUserProfile "2024-06-01T00:00:00.000Z"
          [("userId", JVal.jstr "u1"), ("sk", JVal.jstr "PROFILE#A"),
           ("name", JVal.jstr "Ann")]))
      "u1" "PROFILE#A" =
      some [("userId", JVal.jstr "u1"), ("sk", JVal.jstr "PROFILE#A"),
            ("name", JVal.jstr "Ann"), ("itemType", JVal.jstr "PROFILE"),
            ("createdAt", JVal.jstr "2024-06-01T00:00:00.000Z")] ∧
    getK [("userId", JVal.jstr "u1"), ("sk", JVal.jstr "PROFILE#A"),
          ("name", JVal.jstr "Ann"), ("itemType", JVal.jstr "PROFILE"),
          ("createdAt", JVal.jstr "2024-06-01T00:00:00.000Z")] "createdAt" ≠
      some (JVal.jstr "2020-01-01T00:00:00.000Z") := by
  refine ⟨by decide, by decide⟩

/-- C1 amended: every put path (`createUserProfile`, `addUserDetail`,
`addUserActivity`) assigns `createdAt := now` unconditionally before the
put, so the record stored at the key afterwards carries the put time as
`createdAt`, regardless of any prior record. -/
theorem put_sets_createdAt_to_now (t : Table) (item : AttrMap)
    (now u k : String) (h : matchKey (createUserProfile now item) u k = true) :
    getItem (putCmd t (createUserProfile now item)) u k =
      some (createUserProfile now item) ∧
    getK (createUserProfile now item) "createdAt" = some (.jstr now) ∧
    (∀ userId dty data,
      getK (addUserDetail now userId dty data) "createdAt" = some (.jstr now)) ∧
    (∀ userId aty data,
      getK (addUserActivity now userId aty data) "createdAt" = some (.jstr now)) := by
  refine ⟨?_, getK_setK_self _ _ _, fun _ _ _ => getK_setK_self _ _ _,
    fun _ _ _ => getK_setK_self _ _ _⟩
  show List.find? (fun r => matchKey r u k)
      (createUserProfile now item ::
        List.filter (fun r => !sameKey r (createUserProfile now item)) t) =
    some (createUserProfile now item)
  exact List.find?_cons_of_pos _ h

/-- C1 amended witness: fresh table, concrete profile. -/
theorem put_sets_createdAt_to_now_wit :
    getItem (putCmd [] (createUserProfile "2024-06-01T00:00:00.000Z"
        [("userId", JVal.jstr "u1"), ("sk", JVal.jstr "PROFILE#A")]))
      "u1" "PROFILE#A" =
      some (createUserProfile "2024-06-01T00:00:00.000Z"
        [("userId", JVal.jstr "u1"), ("sk", JVal.jstr "PROFILE#A")]) :=
  (put_sets_createdAt_to_now []
    [("userId", JVal.jstr "u1"), ("sk", JVal.jstr "PROFILE#A")]
    "2024-06-01T00:00:00.000Z" "u1" "PROFILE#A" (by decide)).1

/-! ### C2 — no lazy expiry on the read path -/

/-- C2 counterexample: a physically stored record whose `expiresAt` (5)
is in the past (now = 100) is returned by `getItem` and included in
`scanTable` — reads do not treat it as absent. -/
theorem expired_record_visible_cex :
    getItem [[("userId", JVal.jstr "u1"), ("sk", JVal.jstr "PROFILE#A"),
              ("expiresAt", JVal.jnum 5)]] "u1" "PROFILE#A" =
      some [("userId", JVal.jstr "u1"), ("sk", JVal.jstr "PROFILE#A"),
            ("expiresAt", JVal.jnum 5)] ∧
    (5 : Int) < 100 ∧
    [("userId", JVal.jstr "u1"), ("sk", JVal.jstr "PROFILE#A"),
     ("expiresAt", JVal.jnum 5)] ∈
      scanTable [[("userId", JVal.jstr "u1"), ("sk", JVal.jstr "PROFILE#A"),
                  ("expiresAt", JVal.jnum 5)]] := by
  refine ⟨by decide, by decide, by decide⟩

/-- C2 amended: the read operations carry no expiry filter at all — any
physically stored record is returned by `getItem`, `scanTable` and
`queryUserItems` even when its `expiresAt` lies strictly before the
current time. -/
theorem reads_ignore_expiresAt (t : Table) (u k : String) (r : AttrMap)
    (e nowSec : Int) (hfind : getCmd t u k = some r)
    (hexp : getK r "expiresAt" = some (.jnum e)) (hpast : e < nowSec) :
    getItem t u k = some r ∧ r ∈ scanTable t ∧ r ∈ queryUserItems t u none := by
  have hfind1 : List.find? (fun rr => matchKey rr u k) t = some r := hfind
  have hmem : r ∈ t := List.mem_of_find?_eq_some hfind1
  have hpred : matchKey r u k = true :=
    List.find?_some (p := fun rr => matchKey rr u k) hfind1
  refine ⟨hfind, hmem, ?_⟩
  simp only [matchKey, Bool.and_eq_true, beq_iff_eq] at hpred
  exact List.mem_filter.mpr ⟨hmem, by simp [queryUserItems, hpred.1]⟩

/-- C2 amended witness: the expired record of the counterexample. -/
theorem reads_ignore_expiresAt_wit :
    getItem [[("userId", JVal.jstr "u1"), ("sk", JVal.jstr "PROFILE#B"),
              ("expiresAt", JVal.jnum 10)]] "u1" "PROFILE#B" =
      some [("userId", JVal.jstr "u1"), ("sk", JVal.jstr "PROFILE#B"),
            ("expiresAt", JVal.jnum 10)] :=
  (reads_ignore_expiresAt
    [[("userId", JVal.jstr "u1"), ("sk", JVal.jstr "PROFILE#B"),
      ("expiresAt", JVal.jnum 10)]] "u1" "PROFILE#B"
    [("userId", JVal.jstr "u1"), ("sk", JVal.jstr "PROFILE#B"),
     ("expiresAt", JVal.jnum 10)] 10 100
    (by decide) (by decide) (by decide)).1

/-! ### C6 — EmptyPatch and the implicit updatedAt -/

/-- The ttl branch can only fail with `invalidTTL`. -/
theorem ttlFragment_error_eq (tv : JVal) (ns : Int) (e : BuildErr)
    (h : ttlFragment tv ns = .error e) : e = .invalidTTL := by
  unfold ttlFragment at h
  split at h
  · exact absurd h (by simp)
  · split at h
    · injection h with h1
      exact h1.symm
    · exact absurd h (by simp)

/-- `finishUpdate` reports `emptyPatch` exactly when the ttl branch
contributed no fragment and the field loop contributed no fragment — the
implicitly appended `updatedAt` fragment does not count. -/
theorem finishUpdate_emptyPatch_iff (pre : List String) (vals : AttrMap)
    (data : AttrMap) (now : String) :
    finishUpdate pre vals data now = .error .emptyPatch ↔
      pre = [] ∧ fieldFragments data = [] := by
  simp only [finishUpdate]
  split
  · rename_i hlen
    simp only [List.length_append, List.length_cons, List.length_nil] at hlen
    constructor
    · intro _
      refine ⟨List.length_eq_zero.mp (by omega), List.length_eq_zero.mp (by omega)⟩
    · intro _
      rfl
  · rename_i hlen
    constructor
    · intro h
      exact absurd h (by simp)
    · intro hpf
      exact absurd (by simp [hpf.1, hpf.2]) hlen

/-- Every successful build contains the implicit `updatedAt = :updatedAt`
fragment on the SET side and the `:updatedAt` value binding. -/
theorem finishUpdate_ok_updatedAt (pre : List String) (vals : AttrMap)
    (data : AttrMap) (now : String) (out : BuildOut)
    (h : finishUpdate pre vals data now = .ok out) :
    "updatedAt = :updatedAt" ∈ out.setExprs ∧
    getK out.values ":updatedAt" = some (.jstr now) := by
  simp only [finishUpdate] at h
  split at h
  · exact absurd h (by simp)
  · injection h with h1
    subst h1
    refine ⟨List.mem_filter.mpr ⟨by simp, by decide⟩, getK_setK_self _ _ _⟩

/-- Equation lemma: update case without a ttl entry. -/
theorem updateCase_eq_no_ttl (data : AttrMap) (now : String) (ns : Int)
    (httl : getK data "ttl" = none) :
    updateCase data now ns = finishUpdate [] [] data now := by
  unfold updateCase
  rw [httl]

/-- Equation lemma: update case with a ttl entry whose branch succeeds. -/
theorem updateCase_eq_ttl_ok (data : AttrMap) (now : String) (ns : Int)
    (tv : JVal) (f : String) (v : AttrMap)
    (httl : getK data "ttl" = some tv) (hf : ttlFragment tv ns = .ok (f, v)) :
    updateCase data now ns = finishUpdate [f] v (delK data "ttl") now := by
  unfold updateCase
  rw [httl]
  show (match ttlFragment tv ns with
        | Except.error e => Except.error e
        | Except.ok (frag, vals) => finishUpdate [frag] vals (delK data "ttl") now) =
    finishUpdate [f] v (delK data "ttl") now
  rw [hf]

/-- Equation lemma: update case with a ttl entry whose branch fails. -/
theorem updateCase_eq_ttl_error (data : AttrMap) (now : String) (ns : Int)
    (tv : JVal) (e : BuildErr)
    (httl : getK data "ttl" = some tv) (hf : ttlFragment tv ns = .error e) :
    updateCase data now ns = .error e := by
  unfold updateCase
  rw [httl]
  show (match ttlFragment tv ns with
        | Except.error e => Except.error e
        | Except.ok (frag, vals) => finishUpdate [frag] vals (delK data "ttl") now) =
    Except.error e
  rw [hf]

/-- C6: the update case fails with the EmptyPatch error ("No fields to
update provided") exactly when the caller supplied neither a ttl entry
nor any eligible field — the implicit `updatedAt` fragment is appended
before the check but does not count; and every accepted update carries
`updatedAt = :updatedAt` on the SET side with the `:updatedAt` value
bound to the current time, even when no caller-supplied set field exists. -/
theorem updateCase_emptyPatch_and_updatedAt (data : AttrMap) (now : String)
    (ns : Int) :
    (updateCase data now ns = .error .emptyPatch ↔
      getK data "ttl" = none ∧ fieldFragments data = []) ∧
    ∀ out, updateCase data now ns = .ok out →
      "updatedAt = :updatedAt" ∈ out.setExprs ∧
      getK out.values ":updatedAt" = some (.jstr now) := by
  cases httl : getK data "ttl" with
  | none =>
    rw [updateCase_eq_no_ttl data now ns httl]
    refine ⟨?_, fun out h => finishUpdate_ok_updatedAt [] [] data now out h⟩
    rw [finishUpdate_emptyPatch_iff]
    simp [httl]
  | some tv =>
    cases hf : ttlFragment tv ns with
    | error e =>
      have he : e = BuildErr.invalidTTL := ttlFragment_error_eq tv ns e hf
      subst he
      rw [updateCase_eq_ttl_error data now ns tv BuildErr.invalidTTL httl hf]
      refine ⟨?_, fun out h => absurd h (by simp)⟩
      constructor
      · intro h
        exact absurd h (by simp)
      · intro hc
        simp [httl] at hc
    | ok fv =>
      obtain ⟨f, v⟩ := fv
      rw [updateCase_eq_ttl_ok data now ns tv f v httl hf]
      refine ⟨?_, fun out h =>
        finishUpdate_ok_updatedAt [f] v (delK data "ttl") now out h⟩
      constructor
      · intro h
        rw [finishUpdate_emptyPatch_iff] at h
        exact absurd h.1 (by simp)
      · intro hc
        simp [httl] at hc

/-- C6 witness: with no caller-supplied fields the build fails with the
EmptyPatch error, and with one field ("name") the successful build's SET
side contains the implicit updatedAt fragment. -/
theorem updateCase_emptyPatch_and_updatedAt_wit :
    updateCase [("userId", JVal.jstr "u1"), ("sk", JVal.jstr "k1")]
      "2024-06-01T00:00:00.000Z" 100 = .error .emptyPatch ∧
    "updatedAt = :updatedAt" ∈
      (BuildOut.mk "SET name = :name, updatedAt = :updatedAt"
        [(":name", JVal.jstr "Bob"),
         (":updatedAt", JVal.jstr "2024-06-01T00:00:00.000Z")]
        ["name = :name", "updatedAt = :updatedAt"] []).setExprs :=
  ⟨(updateCase_emptyPatch_and_updatedAt
      [("userId", JVal.jstr "u1"), ("sk", JVal.jstr "k1")]
      "2024-06-01T00:00:00.000Z" 100).1.mpr ⟨rfl, rfl⟩,
   ((updateCase_emptyPatch_and_updatedAt
      [("userId", JVal.jstr "u1"), ("sk", JVal.jstr "k1"),
       ("name", JVal.jstr "Bob")]
      "2024-06-01T00:00:00.000Z" 100).2 _ rfl).1⟩

/-! ### C3 — reserved key fields are skipped, not rejected -/

/-- C3 counterexample: an update request whose field entries include the
partition key (`userId`) and sort key (`sk`) does not fail with any
error — the build succeeds, the reserved entries are silently dropped
from the expression, and the update proceeds with the remaining field. -/
theorem update_reserved_fields_not_rejected_cex :
    updateCase [("userId", JVal.jstr "u1"), ("sk", JVal.jstr "k1"),
                ("name", JVal.jstr "Bob")] "2024-06-01T00:00:00.000Z" 100 =
      .ok ⟨"SET name = :name, updatedAt = :updatedAt",
           [(":name", JVal.jstr "Bob"),
            (":updatedAt", JVal.jstr "2024-06-01T00:00:00.000Z")],
           ["name = :name", "updatedAt = :updatedAt"], []⟩ := by
  rfl

/-- Dropping the reserved entries beforehand leaves the field fragments
unchanged: the loop ignores exactly those entries. -/
theorem fieldFragments_filter_eligible (data : AttrMap) :
    fieldFragments (data.filter (fun p => eligibleKey p.1)) =
      fieldFragments data := by
  induction data with
  | nil => rfl
  | cons p rest ih =>
    obtain ⟨k, v⟩ := p
    by_cases h : eligibleKey k = true
    · rw [List.filter_cons_of_pos (by simpa using h)]
      simp only [fieldFragments, h, if_true, ih]
    · rw [List.filter_cons_of_neg (by simpa using h)]
      simp only [fieldFragments]
      rw [if_neg (by simpa using h)]
      exact ih

/-- Dropping the reserved entries beforehand leaves the collected
expression attribute values unchanged. -/
theorem addFieldValues_filter_eligible (data : AttrMap) :
    ∀ acc, addFieldValues acc (data.filter (fun p => eligibleKey p.1)) =
      addFieldValues acc data := by
  induction data with
  | nil => intro acc; rfl
  | cons p rest ih =>
    intro acc
    obtain ⟨k, v⟩ := p
    by_cases h : eligibleKey k = true
    · rw [List.filter_cons_of_pos (by simpa using h)]
      simp only [addFieldValues, h, if_true]
      exact ih _
    · rw [List.filter_cons_of_neg (by simpa using h)]
      simp only [addFieldValues]
      rw [if_neg (by simpa using h)]
      exact ih acc

/-- `delete data.ttl` commutes with dropping the reserved entries. -/
theorem delK_filter_eligible_comm (data : AttrMap) (k : String) :
    delK (data.filter (fun p => eligibleKey p.1)) k =
      (delK data k).filter (fun p => eligibleKey p.1) := by
  induction data with
  | nil => rfl
  | cons p rest ih =>
    obtain ⟨k1, v1⟩ := p
    by_cases h1 : eligibleKey k1 = true
    · rw [List.filter_cons_of_pos (by simpa using h1)]
      by_cases h2 : k1 = k
      · simp only [delK]
        rw [if_pos h2, if_pos h2]
        exact ih
      · simp only [delK]
        rw [if_neg h2, if_neg h2]
        rw [List.filter_cons_of_pos (by simpa using h1), ih]
    · rw [List.filter_cons_of_neg (by simpa using h1)]
      simp only [delK]
      by_cases h2 : k1 = k
      · rw [if_pos h2]
        exact ih
      · rw [if_neg h2]
        rw [List.filter_cons_of_neg (by simpa using h1)]
        exact ih

/-- `finishUpdate` is unchanged when the reserved entries are dropped
from the data first. -/
theorem finishUpdate_filter_eligible (pre : List String) (vals : AttrMap)
    (data : AttrMap) (now : String) :
    finishUpdate pre vals (data.filter (fun p => eligibleKey p.1)) now =
      finishUpdate pre vals data now := by
  simp only [finishUpdate, fieldFragments_filter_eligible,
    addFieldValues_filter_eligible]

/-- C3 amended: the update case never rejects reserved fields — entries
named `userId`, `sk` or `operation` in the request body are silently
skipped: the build behaves exactly as if those entries had been removed
from the request, and its only failures are the invalid-ttl and
EmptyPatch errors (there is no ReservedField failure). -/
theorem updateCase_skips_reserved (data : AttrMap) (now : String) (ns : Int) :
    updateCase data now ns =
      updateCase (data.filter (fun p => eligibleKey p.1)) now ns := by
  have httlf : getK (data.filter (fun p => eligibleKey p.1)) "ttl" =
      getK data "ttl" :=
    getK_filter (fun p => eligibleKey p.1) data "ttl"
      (fun _ => (by decide : eligibleKey "ttl" = true))
  cases httl : getK data "ttl" with
  | none =>
    rw [updateCase_eq_no_ttl data now ns httl,
      updateCase_eq_no_ttl _ now ns (by rw [httlf, httl]),
      finishUpdate_filter_eligible]
  | some tv =>
    cases hf : ttlFragment tv ns with
    | error e =>
      rw [updateCase_eq_ttl_error data now ns tv e httl hf,
        updateCase_eq_ttl_error _ now ns tv e (by rw [httlf, httl]) hf]
    | ok fv =>
      obtain ⟨f, v⟩ := fv
      rw [updateCase_eq_ttl_ok data now ns tv f v httl hf,
        updateCase_eq_ttl_ok _ now ns tv f v (by rw [httlf, httl]) hf,
        delK_filter_eligible_comm, finishUpdate_filter_eligible]

/-! ### C5 — one instruction: all removes, then all sets (corrected) -/

/-- Assignment and deletion on different keys commute. -/
theorem setK_delK_comm (m : AttrMap) (k x : String) (v : JVal) (h : k ≠ x) :
    setK (delK m x) k v = delK (setK m k v) x := by
  induction m with
  | nil => simp [delK, setK, h]
  | cons p rest ih =>
    obtain ⟨k1, v1⟩ := p
    by_cases h1 : k1 = x
    · subst h1
      have hk : ¬ k1 = k := fun he => h he.symm
      simp [delK, setK, hk, ih]
    · by_cases h2 : k1 = k
      · subst h2
        simp [delK, setK, h1, h]
      · simp [delK, setK, h1, h2, ih]

/-- Folding assignments whose keys all differ from `x` commutes with
deleting `x` first: removing and then setting equals setting and then
removing — the single atomic instruction is order-insensitive on
disjoint fields. -/
theorem foldl_setK_delK_comm (L : AttrMap) (x : String)
    (h : ∀ p ∈ L, p.1 ≠ x) :
    ∀ r : AttrMap,
      L.foldl (fun m p => setK m p.1 p.2) (delK r x) =
        delK (L.foldl (fun m p => setK m p.1 p.2) r) x := by
  induction L with
  | nil => intro r; rfl
  | cons p rest ih =>
    intro r
    simp only [List.foldl_cons]
    rw [setK_delK_comm r p.1 x p.2 (h p (by simp))]
    exact ih (fun q hq => h q (by simp [hq])) (setK r p.1 p.2)

/-- C5 counterexample: a validated patch whose remove side is non-empty
(ttl = null removes `expiresAt`) and whose set side is the non-empty
field "REMOVED": the build succeeds, but the set assignment
"REMOVED = :REMOVED" is misrouted into the REMOVE clause of the built
expression and is absent from the SET fragments — the single instruction
does not apply all sets after the removals, so the claim fails. -/
theorem update_remove_set_patch_misrouted_cex :
    updateCase [("userId", JVal.jstr "u1"), ("sk", JVal.jstr "k1"),
                ("ttl", JVal.jnull), ("REMOVED", JVal.jstr "x")]
      "2024-06-01T00:00:00.000Z" 100 =
      .ok ⟨"SET updatedAt = :updatedAt REMOVE expiresAt, REMOVED = :REMOVED",
           [(":REMOVED", JVal.jstr "x"),
            (":updatedAt", JVal.jstr "2024-06-01T00:00:00.000Z")],
           ["updatedAt = :updatedAt"],
           ["REMOVE expiresAt", "REMOVED = :REMOVED"]⟩ ∧
    "REMOVED = :REMOVED" ∉ ["updatedAt = :updatedAt"] := by
  refine ⟨rfl, by decide⟩

/-- C5 amended: for a validated patch whose remove side is non-empty
(ttl = null or "" removes `expiresAt`) and whose set side is non-empty,
provided no caller set-field fragment begins with "REMOVE" (such fields
are misrouted into the REMOVE clause, see the counterexample) and no set
field is named `expiresAt`, the update case produces a single
instruction: one expression string carrying every SET fragment (the
caller fields plus the implicit `updatedAt`) and the REMOVE clause, with
one value map — and, under the engine's atomic application, applying all
removals first and then all sets equals the simultaneous one-step result
on the disjoint fields. -/
theorem updateCase_single_instruction (data : AttrMap) (now : String)
    (ns : Int) (tv : JVal)
    (httl : getK data "ttl" = some tv)
    (htv : tv = JVal.jnull ∨ tv = JVal.jstr "")
    (hne : fieldFragments (delK data "ttl") ≠ [])
    (hnr : ∀ s ∈ fieldFragments (delK data "ttl"),
      strStartsWith s "REMOVE" = false)
    (hex : ∀ p ∈ eligiblePairs (delK data "ttl"), p.1 ≠ "expiresAt") :
    updateCase data now ns =
      .ok ⟨"SET " ++ String.intercalate ", "
            (fieldFragments (delK data "ttl") ++ ["updatedAt = :updatedAt"]) ++
            " REMOVE " ++ "expiresAt",
          setK (addFieldValues [] (delK data "ttl")) ":updatedAt" (.jstr now),
          fieldFragments (delK data "ttl") ++ ["updatedAt = :updatedAt"],
          ["REMOVE expiresAt"]⟩ ∧
    (∀ r, applyUpdate ["expiresAt"]
        (eligiblePairs (delK data "ttl") ++ [("updatedAt", JVal.jstr now)]) r =
      delK ((eligiblePairs (delK data "ttl") ++
          [("updatedAt", JVal.jstr now)]).foldl
        (fun m p => setK m p.1 p.2) r) "expiresAt") := by
  constructor
  · rw [updateCase_eq_ttl_ok data now ns tv "REMOVE expiresAt" [] httl
      (by rcases htv with h | h <;> subst h <;> rfl)]
    simp only [finishUpdate]
    rw [if_neg (by simp)]
    have hset : (["REMOVE expiresAt"] ++ fieldFragments (delK data "ttl") ++
        ["updatedAt = :updatedAt"]).filter (fun e => !strStartsWith e "REMOVE") =
        fieldFragments (delK data "ttl") ++ ["updatedAt = :updatedAt"] := by
      rw [List.filter_append, List.filter_append]
      rw [show (["REMOVE expiresAt"].filter
        (fun e => !strStartsWith e "REMOVE")) = [] from rfl]
      rw [List.filter_eq_self.mpr (fun s hs => by rw [hnr s hs]; rfl)]
      rw [show (["updatedAt = :updatedAt"].filter
        (fun e => !strStartsWith e "REMOVE")) = ["updatedAt = :updatedAt"] from rfl]
      simp
    have hrem : (["REMOVE expiresAt"] ++ fieldFragments (delK data "ttl") ++
        ["updatedAt = :updatedAt"]).filter (fun e => strStartsWith e "REMOVE") =
        ["REMOVE expiresAt"] := by
      rw [List.filter_append, List.filter_append]
      rw [show (["REMOVE expiresAt"].filter
        (fun e => strStartsWith e "REMOVE")) = ["REMOVE expiresAt"] from rfl]
      rw [List.filter_eq_nil_iff.mpr (fun s hs => by simp [hnr s hs])]
      rw [show (["updatedAt = :updatedAt"].filter
        (fun e => strStartsWith e "REMOVE")) = [] from rfl]
      simp
    rw [hset, hrem]
    rfl
  · intro r
    have hall : ∀ p ∈ eligiblePairs (delK data "ttl") ++
        [("updatedAt", JVal.jstr now)], p.1 ≠ "expiresAt" := by
      intro p hp
      rcases List.mem_append.mp hp with hp1 | hp2
      · exact hex p hp1
      · rw [List.mem_singleton.mp hp2]
        exact (by decide : ("updatedAt" : String) ≠ "expiresAt")
    exact foldl_setK_delK_comm _ "expiresAt" hall r

/-- C5 witness: ttl = null (remove expiresAt) plus one caller set field. -/
theorem updateCase_single_instruction_wit :
    updateCase [("ttl", JVal.jnull), ("name", JVal.jstr "Ann")]
      "2024-06-01T00:00:00.000Z" 100 =
      .ok ⟨"SET " ++ String.intercalate ", "
            (fieldFragments (delK [("ttl", JVal.jnull), ("name", JVal.jstr "Ann")] "ttl") ++
              ["updatedAt = :updatedAt"]) ++ " REMOVE " ++ "expiresAt",
          setK (addFieldValues []
            (delK [("ttl", JVal.jnull), ("name", JVal.jstr "Ann")] "ttl"))
            ":updatedAt" (.jstr "2024-06-01T00:00:00.000Z"),
          fieldFragments (delK [("ttl", JVal.jnull), ("name", JVal.jstr "Ann")] "ttl") ++
            ["updatedAt = :updatedAt"],
          ["REMOVE expiresAt"]⟩ :=
  (updateCase_single_instruction [("ttl", JVal.jnull), ("name", JVal.jstr "Ann")]
    "2024-06-01T00:00:00.000Z" 100 JVal.jnull rfl (Or.inl rfl)
    (by decide) (by decide) (by decide)).1

end NextDynamo
